import Mathlib

/-!
Verification of the RateLimiter-JS core (`src/index.ts` of the multi-algorithm
version, together with its `types.ts`).

The embedding is a direct shallow translation of the TypeScript source:

* JavaScript numbers are modelled by `ℚ`.  A JavaScript numeric value that may
  be `undefined` or `NaN` is modelled by `Option ℚ`, with `none` standing for
  `undefined`/`NaN`; the `j…` helpers below implement the JavaScript coercion
  rules used by the source for those values (arithmetic on `undefined`/`NaN`
  yields `NaN`; any `<`/`>` comparison involving them is `false`;
  `Math.floor`/`Math.max`/`Math.min` propagate `NaN`).  Non-finite values
  (`Infinity`) are not modelled; the theorems about the refill and rounding
  paths therefore carry positivity hypotheses on the divisors
  (`refillInterval`, `precision`), matching every configuration the library
  documents.
* A JavaScript `Map` is modelled by an insertion-ordered association list
  (`List (key × value)`); `Map.get`, `Map.set`, `Map.delete`-during-`forEach`
  become `mapGet`, `mapSet` and `List.filter`.
* Entries (`interface Entry` in `types.ts`) have exactly the optional fields
  of the source: `count?`, `buckets?`, `tokens?`, `lastRefill?` and the
  mandatory `resetTime`.
* Methods that can `throw` (only `check`, through its
  `default: throw new Error("Unknown algorithm: …")` branch, and
  `checkSlidingWindow`, through `entry.buckets!.forEach` on a missing map)
  return `Except String _`; everything else is total, as in the source.
-/

namespace RateLimiter

/-! ### JavaScript numeric coercion helpers

`none` models `undefined`/`NaN`.  Each helper implements exactly the coercion
behaviour of the JavaScript operator it is named after, restricted to finite
values. -/

/-- JavaScript `a + b`: `NaN`/`undefined` operands give `NaN`. -/
def jAdd : Option ℚ → Option ℚ → Option ℚ
  | some a, some b => some (a + b)
  | _, _ => none

/-- JavaScript `a - b`: `NaN`/`undefined` operands give `NaN`. -/
def jSub : Option ℚ → Option ℚ → Option ℚ
  | some a, some b => some (a - b)
  | _, _ => none

/-- JavaScript `a / c` for a plain (present) divisor `c ≠ 0`. -/
def jDivC (a : Option ℚ) (c : ℚ) : Option ℚ :=
  a.map (fun x => x / c)

/-- JavaScript `a * c` for a plain (present) factor `c`. -/
def jMulC (a : Option ℚ) (c : ℚ) : Option ℚ :=
  a.map (fun x => x * c)

/-- JavaScript `Math.floor`: `Math.floor(NaN) = NaN`. -/
def jFloor (a : Option ℚ) : Option ℚ :=
  a.map (fun x => (⌊x⌋ : ℚ))

/-- JavaScript `Math.max(a, b)`: `NaN` propagates. -/
def jMax : Option ℚ → Option ℚ → Option ℚ
  | some a, some b => some (max a b)
  | _, _ => none

/-- JavaScript `Math.min(a, b)`: `NaN` propagates. -/
def jMin : Option ℚ → Option ℚ → Option ℚ
  | some a, some b => some (min a b)
  | _, _ => none

/-- JavaScript `a < 0`: `false` when `a` is `NaN`/`undefined`. -/
def jLtZero : Option ℚ → Bool
  | some a => decide (a < 0)
  | none => false

/-- JavaScript `a > 0`: `false` when `a` is `NaN`/`undefined`. -/
def jGtZero : Option ℚ → Bool
  | some a => decide (0 < a)
  | none => false

/-- JavaScript `a > b`: `false` when either side is `NaN`/`undefined`. -/
def jGt : Option ℚ → Option ℚ → Bool
  | some a, some b => decide (b < a)
  | _, _ => false

/-! ### JavaScript `Map` as an insertion-ordered association list -/

/-- JavaScript `Map.prototype.get`: value of the (unique) matching key. -/
def mapGet {α β : Type} [DecidableEq α] (m : List (α × β)) (k : α) : Option β :=
  (m.find? (fun p => decide (p.1 = k))).map Prod.snd

/-- JavaScript `Map.prototype.set`: replace the value at an existing key in
place (keeping its insertion position), otherwise append the new pair. -/
def mapSet {α β : Type} [DecidableEq α] : List (α × β) → α → β → List (α × β)
  | [], k, v => [(k, v)]
  | p :: ps, k, v => if p.1 = k then (k, v) :: ps else p :: mapSet ps k v

/-! ### Data model (`types.ts`) -/

/-- `interface Entry` from `types.ts`: the per-key record stored by the
limiter.  `count?`, `buckets?`, `tokens?` and `lastRefill?` are optional in the
source (which field set is populated depends on the algorithm); `resetTime` is
mandatory.  The `buckets` map (`Map<number, number>`) is timestamp ↦ count. -/
structure Entry where
  count : Option ℚ := none
  buckets : Option (List (ℚ × ℚ)) := none
  tokens : Option ℚ := none
  lastRefill : Option ℚ := none
  resetTime : ℚ
deriving DecidableEq, Repr

/-- `interface RateLimitResult` from `types.ts`.  `remaining` and `current`
are `Option ℚ` because the source can produce `NaN` for them (see the `get`
path under the token-bucket algorithm). -/
structure RateLimitResult where
  limited : Bool
  remaining : Option ℚ
  reset : ℚ
  current : Option ℚ
  limit : ℚ
  window : ℚ
deriving DecidableEq, Repr

/-- The resolved configuration (`RateLimitConfig` merged with
`DEFAULT_CONFIG`).  `algorithm` is the runtime value of the string enum
`Algorithm`, kept as a `String` because the source's `check` has to handle
unrecognized values at run time.  Field default values are those of
`DEFAULT_CONFIG` in the source. -/
structure RateLimitConfig where
  algorithm : String := "FIXED_WINDOW"
  window : ℚ := 60000
  max : ℚ := 60
  refillRate : ℚ := 1
  refillInterval : ℚ := 1000
  precision : ℚ := 100
  enableCleanup : Bool := true
  cleanupInterval : ℚ := 30000
deriving DecidableEq, Repr

/-- `DEFAULT_CONFIG` constant of the source. -/
def DEFAULT_CONFIG : RateLimitConfig := {}

/-- The caller-supplied `Partial<RateLimitConfig>` accepted by the
constructor: every field may be absent. -/
structure ConfigInput where
  algorithm : Option String := none
  window : Option ℚ := none
  max : Option ℚ := none
  refillRate : Option ℚ := none
  refillInterval : Option ℚ := none
  precision : Option ℚ := none
  enableCleanup : Option Bool := none
  cleanupInterval : Option ℚ := none
deriving DecidableEq, Repr

/-- The constructor's `this.config = { ...DEFAULT_CONFIG, ...config }` merge.
The constructor performs no validation of `algorithm` (it only merges the
configuration and schedules cleanup), so it is a total function. -/
def mkRateLimiter (c : ConfigInput) : RateLimitConfig :=
  { algorithm := c.algorithm.getD DEFAULT_CONFIG.algorithm
    window := c.window.getD DEFAULT_CONFIG.window
    max := c.max.getD DEFAULT_CONFIG.max
    refillRate := c.refillRate.getD DEFAULT_CONFIG.refillRate
    refillInterval := c.refillInterval.getD DEFAULT_CONFIG.refillInterval
    precision := c.precision.getD DEFAULT_CONFIG.precision
    enableCleanup := c.enableCleanup.getD DEFAULT_CONFIG.enableCleanup
    cleanupInterval := c.cleanupInterval.getD DEFAULT_CONFIG.cleanupInterval }

/-- The limiter's internal `Map<StoreKey, Entry>`. -/
abbrev Store := List (String × Entry)

/-! ### Operations (`index.ts`) -/

/-- `generateKey(endpoint, identifier)`: the template literal
`` `${endpoint}:${identifier}` ``. -/
def generateKey (endpoint identifier : String) : String :=
  endpoint ++ ":" ++ identifier

/-- `cleanupExpiredEntries()`: delete every entry with `resetTime <= now`. -/
def cleanupExpiredEntries (store : Store) (now : ℚ) : Store :=
  store.filter (fun p => decide (now < p.2.resetTime))

/-- `createNewEntry(now)`: `{ count: 0, resetTime: now + window }` (no
`buckets`, `tokens` or `lastRefill` fields). -/
def createNewEntry (cfg : RateLimitConfig) (now : ℚ) : Entry :=
  { count := some 0, resetTime := now + cfg.window }

/-- `getOrCreateEntry(key, now)`: the stored entry (as a spread copy) when it
is live, else a fresh entry. -/
def getOrCreateEntry (cfg : RateLimitConfig) (store : Store) (key : String) (now : ℚ) : Entry :=
  match mapGet store key with
  | none => createNewEntry cfg now
  | some e => if e.resetTime ≤ now then createNewEntry cfg now else e

/-- `createRateLimitResult(entry)`: the `switch (this.config.algorithm)` that
formats the result.  The source merges the `FIXED_WINDOW` and `default` cases;
the `SLIDING_WINDOW` case has the same body as the fixed-window one. -/
def createRateLimitResult (cfg : RateLimitConfig) (entry : Entry) : RateLimitResult :=
  if cfg.algorithm = "TOKEN_BUCKET" then
    { limited := jLtZero entry.tokens
      remaining := jMax (jFloor entry.tokens) (some 0)
      reset := entry.resetTime
      current := jSub (some cfg.max) entry.tokens
      limit := cfg.max
      window := cfg.window }
  else if cfg.algorithm = "SLIDING_WINDOW" then
    { limited := jGt entry.count (some cfg.max)
      remaining := jMax (jSub (some cfg.max) entry.count) (some 0)
      reset := entry.resetTime
      current := entry.count
      limit := cfg.max
      window := cfg.window }
  else
    { limited := jGt entry.count (some cfg.max)
      remaining := jMax (jSub (some cfg.max) entry.count) (some 0)
      reset := entry.resetTime
      current := entry.count
      limit := cfg.max
      window := cfg.window }

/-- `checkFixedWindow(key, now)`. -/
def checkFixedWindow (cfg : RateLimitConfig) (store : Store) (key : String) (now : ℚ) :
    Store × RateLimitResult :=
  let entry := getOrCreateEntry cfg store key now
  let entry := if entry.resetTime ≤ now then
    { entry with count := some 0, resetTime := now + cfg.window } else entry
  let entry := { entry with count := jAdd entry.count (some 1) }
  (mapSet store key entry, createRateLimitResult cfg entry)

/-- `Math.floor(now / precision) * precision` from the sliding-window path. -/
def roundedTo (precision t : ℚ) : ℚ :=
  (⌊t / precision⌋ : ℚ) * precision

/-- The `entry.buckets.forEach` loop of the sliding-window paths: delete every
bucket with `timestamp <= windowStart`, keep the rest (in order). -/
def pruneBuckets (b : List (ℚ × ℚ)) (windowStart : ℚ) : List (ℚ × ℚ) :=
  b.filter (fun p => decide (windowStart < p.1))

/-- The running `totalCount` accumulated over the surviving buckets. -/
def bucketsTotal (b : List (ℚ × ℚ)) : ℚ :=
  (b.map Prod.snd).sum

/-- `Math.min(...entry.buckets.keys())`; only evaluated by the source under a
`size > 0` guard, so the `[]` case is arbitrary. -/
def oldestTimestamp : List (ℚ × ℚ) → ℚ
  | [] => 0
  | p :: ps => ps.foldl (fun m q => min m q.1) p.1

/-- `checkSlidingWindow(key, now)`.  Faults (like the source's
`entry.buckets!.forEach` would) if the stored entry has no `buckets` map. -/
def checkSlidingWindow (cfg : RateLimitConfig) (store : Store) (key : String) (now : ℚ) :
    Except String (Store × RateLimitResult) :=
  let entry := (mapGet store key).getD
    { count := some 0, buckets := some [], resetTime := now + cfg.window }
  match entry.buckets with
  | none => .error "TypeError: entry.buckets is undefined"
  | some b =>
    let roundedNow := roundedTo cfg.precision now
    let windowStart := roundedNow - cfg.window
    let kept := pruneBuckets b windowStart
    let currentCount := (mapGet kept roundedNow).getD 0 + 1
    let buckets1 := mapSet kept roundedNow currentCount
    let totalCount := bucketsTotal kept + 1
    let resetTime :=
      if 0 < buckets1.length then oldestTimestamp buckets1 + cfg.window
      else roundedNow + cfg.window
    let entry1 : Entry :=
      { entry with count := some totalCount, buckets := some buckets1, resetTime := resetTime }
    .ok (mapSet store key entry1, createRateLimitResult cfg entry1)

/-- The `store.get(key) || { tokens: max, lastRefill: now, resetTime: now + window }`
defaulting at the top of `checkTokenBucket`. -/
def tokenEntry (cfg : RateLimitConfig) (store : Store) (key : String) (now : ℚ) : Entry :=
  (mapGet store key).getD
    { tokens := some cfg.max, lastRefill := some now, resetTime := now + cfg.window }

/-- `checkTokenBucket(key, now)`. -/
def checkTokenBucket (cfg : RateLimitConfig) (store : Store) (key : String) (now : ℚ) :
    Store × RateLimitResult :=
  let entry := tokenEntry cfg store key now
  let timePassed := jSub (some now) entry.lastRefill
  let tokensToAdd := jMulC (jFloor (jDivC timePassed cfg.refillInterval)) cfg.refillRate
  let entry1 := if jGtZero tokensToAdd then
    { entry with
        tokens := jMin (jMax (jAdd entry.tokens tokensToAdd) tokensToAdd) (some cfg.max)
        lastRefill := some now }
    else entry
  let entry2 := { entry1 with tokens := jSub entry1.tokens (some 1) }
  (mapSet store key entry2,
   { createRateLimitResult cfg entry2 with
       remaining := jMax (jFloor entry2.tokens) (some 0) })

/-- `check(endpoint, identifier)`: the public admission call, dispatching on
`this.config.algorithm` with a throwing `default` branch. -/
def check (cfg : RateLimitConfig) (store : Store) (endpoint identifier : String) (now : ℚ) :
    Except String (Store × RateLimitResult) :=
  let key := generateKey endpoint identifier
  if cfg.algorithm = "FIXED_WINDOW" then .ok (checkFixedWindow cfg store key now)
  else if cfg.algorithm = "SLIDING_WINDOW" then checkSlidingWindow cfg store key now
  else if cfg.algorithm = "TOKEN_BUCKET" then .ok (checkTokenBucket cfg store key now)
  else .error ("Unknown algorithm: " ++ cfg.algorithm)

/-- The in-place pruning that `get` performs on a live sliding-window entry:
drop the expired buckets, recompute `count`, and refresh `resetTime` only when
buckets remain. -/
def getSlidingPrune (cfg : RateLimitConfig) (entry : Entry) (b : List (ℚ × ℚ)) (now : ℚ) :
    Entry :=
  let roundedNow := roundedTo cfg.precision now
  let windowStart := roundedNow - cfg.window
  let kept := pruneBuckets b windowStart
  let entry1 := { entry with buckets := some kept, count := some (bucketsTotal kept) }
  if 0 < kept.length then { entry1 with resetTime := oldestTimestamp kept + cfg.window }
  else entry1

/-- `get(endpoint, identifier)`: status read.  For a live sliding-window entry
the source mutates the stored entry in place (bucket pruning); in this value
model that mutation is the explicit `mapSet` write-back.  For the other
algorithms the store is untouched. -/
def get (cfg : RateLimitConfig) (store : Store) (endpoint identifier : String) (now : ℚ) :
    Store × RateLimitResult :=
  let key := generateKey endpoint identifier
  match mapGet store key with
  | none => (store, createRateLimitResult cfg (createNewEntry cfg now))
  | some entry =>
    if cfg.algorithm = "SLIDING_WINDOW" then
      match entry.buckets with
      | some b =>
        let entry1 := getSlidingPrune cfg entry b now
        (mapSet store key entry1, createRateLimitResult cfg entry1)
      | none => (store, createRateLimitResult cfg entry)
    else (store, createRateLimitResult cfg entry)

/-- `getEntry(endpoint, identifier)` in the value model: the stored entry (the
source returns the spread copy `{ ...entry }`).  The reference model below
(`EntryR`) makes the aliasing of the `buckets` field explicit. -/
def getEntry (store : Store) (endpoint identifier : String) : Option Entry :=
  mapGet store (generateKey endpoint identifier)

/-! ### Concrete fixtures used by witnesses and counterexamples -/

/-- Fixed-window test configuration: `max = 2`, `window = 1000`. -/
def cfgFW : RateLimitConfig := { algorithm := "FIXED_WINDOW", max := 2, window := 1000 }

/-- Token-bucket test configuration: `max = 2`, 1 token per 500 ms. -/
def cfgTB : RateLimitConfig :=
  { algorithm := "TOKEN_BUCKET", max := 2, refillRate := 1, refillInterval := 500,
    window := 1000 }

/-- Sliding-window test configuration: `max = 5`, `window = 1000`,
`precision = 100`. -/
def cfgSW : RateLimitConfig :=
  { algorithm := "SLIDING_WINDOW", max := 5, window := 1000, precision := 100 }

/-- A live fixed-window entry with count 1. -/
def entLive : Entry := { count := some 1, resetTime := 50 }

/-- A store holding `entLive` under key `"x:y"`. -/
def storeLive : Store := [("x:y", entLive)]

/-- An expired fixed-window entry with stale count 5. -/
def entStale : Entry := { count := some 5, resetTime := 40 }

/-- A store holding `entStale` under key `"x:y"`. -/
def storeStale : Store := [("x:y", entStale)]

/-- A token-bucket entry in deficit (tokens −1), last refilled at 0. -/
def entTok : Entry := { tokens := some (-1), lastRefill := some 0, resetTime := 1000 }

/-- A store holding `entTok` under key `"x:y"`. -/
def storeTok : Store := [("x:y", entTok)]

/-- A sliding-window entry with buckets at timestamps 0 and 200. -/
def entSW : Entry :=
  { count := some 5, buckets := some [(0, 2), (200, 3)], resetTime := 1000 }

/-- A store holding `entSW` under key `"p:q"`. -/
def storeSW : Store := [("p:q", entSW)]

/-! ### Concrete scenario used by the spec's fixed-window example -/

/-- The configuration of the spec's fixed-window example: `max = 2`,
`FIXED_WINDOW`, window length `w`. -/
def fixedCfg (w : ℚ) : RateLimitConfig :=
  { algorithm := "FIXED_WINDOW", max := 2, window := w }

/-- First of three consecutive `check` calls on one key, starting empty. -/
def fixedDemo1 (key : String) (w t1 : ℚ) : Store × RateLimitResult :=
  checkFixedWindow (fixedCfg w) [] key t1

/-- Second consecutive `check` call. -/
def fixedDemo2 (key : String) (w t1 t2 : ℚ) : Store × RateLimitResult :=
  checkFixedWindow (fixedCfg w) (fixedDemo1 key w t1).1 key t2

/-- Third consecutive `check` call. -/
def fixedDemo3 (key : String) (w t1 t2 t3 : ℚ) : Store × RateLimitResult :=
  checkFixedWindow (fixedCfg w) (fixedDemo2 key w t1 t2).1 key t3

/-! ### Reference model for the `getEntry` shallow copy

JavaScript records hold references: the `buckets` field of a stored entry is
a reference to a `Map` object.  `getEntry` returns the spread copy
`{ ...entry }`, which copies the scalar fields by value but copies the
`buckets` field as the same reference.  To settle the defensive-copy claim,
this model makes the reference explicit: `EntryR` stores a heap address and a
`Heap` maps addresses to `Map` contents. -/

/-- An `Entry` whose `buckets` field is an explicit heap reference. -/
structure EntryR where
  count : Option ℚ := none
  bucketsAddr : Option ℕ := none
  tokens : Option ℚ := none
  lastRefill : Option ℚ := none
  resetTime : ℚ
deriving DecidableEq, Repr

/-- Store of the reference model. -/
abbrev StoreR := List (String × EntryR)

/-- Heap of `Map<number, number>` objects, addressed by `ℕ`. -/
abbrev Heap := List (ℕ × List (ℚ × ℚ))

/-- `getEntry(endpoint, identifier)` in the reference model: the source's
`return entry ? { ...entry } : null`.  The spread copies each field value;
for `buckets` that value is the address of the shared `Map` object, so the
returned record holds the same `bucketsAddr` as the stored entry. -/
def getEntryR (store : StoreR) (endpoint identifier : String) : Option EntryR :=
  (mapGet store (generateKey endpoint identifier)).map
    (fun entry =>
      { count := entry.count
        bucketsAddr := entry.bucketsAddr
        tokens := entry.tokens
        lastRefill := entry.lastRefill
        resetTime := entry.resetTime })

/-- A caller-side `returnedEntry.buckets.set(ts, v)` performed through the
reference held by the entry `getEntry` returned: a heap write at its address. -/
def heapWrite (h : Heap) (addr : ℕ) (ts v : ℚ) : Heap :=
  h.map (fun p => if p.1 = addr then (p.1, mapSet p.2 ts v) else p)

/-- The buckets contents of the stored entry for a key, dereferenced through
the heap: this is what every subsequent internal reader (`check`, `get`,
`getEntry`) observes for that entry's `buckets` map. -/
def observedBuckets (store : StoreR) (h : Heap) (endpoint identifier : String) :
    Option (List (ℚ × ℚ)) :=
  (mapGet store (generateKey endpoint identifier)).bind
    (fun entry => entry.bucketsAddr.bind (fun a => mapGet h a))

/-- Reference-model fixture: a sliding-window entry whose buckets live at
heap address 0. -/
def entR : EntryR := { count := some 1, bucketsAddr := some 0, resetTime := 1000 }

/-- Reference-model fixture store. -/
def storeR : StoreR := [("p:q", entR)]

/-- Reference-model fixture heap: address 0 holds the map `{0 ↦ 1}`. -/
def heapR : Heap := [(0, [(0, 1)])]

/-! ### Association-list lemmas -/

theorem mapGet_nil {α β : Type} [DecidableEq α] (k : α) :
    mapGet ([] : List (α × β)) k = none := rfl

theorem mapGet_cons {α β : Type} [DecidableEq α] (p : α × β) (ps : List (α × β)) (k : α) :
    mapGet (p :: ps) k = if p.1 = k then some p.2 else mapGet ps k := by
  by_cases h : p.1 = k <;> simp [mapGet, List.find?_cons, h]

theorem mapGet_mapSet_self {α β : Type} [DecidableEq α] (m : List (α × β)) (k : α) (v : β) :
    mapGet (mapSet m k v) k = some v := by
  induction m with
  | nil => simp [mapSet, mapGet_cons]
  | cons p ps ih =>
    by_cases h : p.1 = k
    · simp [mapSet, h, mapGet_cons]
    · simp [mapSet, h, mapGet_cons, ih]

theorem mapGet_mapSet_ne {α β : Type} [DecidableEq α] (m : List (α × β)) (k k' : α) (v : β)
    (h : k' ≠ k) : mapGet (mapSet m k v) k' = mapGet m k' := by
  have hkk : ¬ k = k' := fun hh => h hh.symm
  induction m with
  | nil => simp [mapSet, mapGet_cons, mapGet_nil, hkk]
  | cons p ps ih =>
    by_cases hp : p.1 = k
    · subst hp
      simp [mapSet, mapGet_cons, hkk]
    · simp [mapSet, hp, mapGet_cons, ih]

theorem mapSet_mapSet_self {α β : Type} [DecidableEq α] (m : List (α × β)) (k : α) (a b : β) :
    mapSet (mapSet m k a) k b = mapSet m k b := by
  induction m with
  | nil => simp [mapSet]
  | cons p ps ih =>
    by_cases h : p.1 = k
    · simp [mapSet, h]
    · simp [mapSet, h, ih]

theorem mapSet_ne_nil {α β : Type} [DecidableEq α] (m : List (α × β)) (k : α) (v : β) :
    mapSet m k v ≠ [] := by
  cases m with
  | nil => simp [mapSet]
  | cons p ps =>
    by_cases h : p.1 = k <;> simp [mapSet, h]

theorem mem_mapSet_of_mem_of_ne {α β : Type} [DecidableEq α] (m : List (α × β)) (k : α) (v : β)
    (q : α × β) (hq : q ∈ m) (hne : q.1 ≠ k) : q ∈ mapSet m k v := by
  induction m with
  | nil => cases hq
  | cons p ps ih =>
    by_cases h : p.1 = k
    · simp only [mapSet, if_pos h, List.mem_cons]
      rcases List.mem_cons.mp hq with h1 | h1
      · exact absurd (h1 ▸ h) hne
      · exact Or.inr h1
    · simp only [mapSet, if_neg h, List.mem_cons]
      rcases List.mem_cons.mp hq with h1 | h1
      · exact Or.inl h1
      · exact Or.inr (ih h1)

/-! ### Bucket-pruning lemmas -/

theorem mapGet_pruneBuckets (b : List (ℚ × ℚ)) (ws ts : ℚ) :
    mapGet (pruneBuckets b ws) ts = if ws < ts then mapGet b ts else none := by
  induction b with
  | nil => by_cases h : ws < ts <;> simp [pruneBuckets, mapGet_nil, h]
  | cons p ps ih =>
    by_cases hp : ws < p.1
    · by_cases hk : p.1 = ts
      · subst hk
        simp [pruneBuckets, List.filter_cons, hp, mapGet_cons]
      · simp only [pruneBuckets] at ih
        simp [pruneBuckets, List.filter_cons, hp, mapGet_cons, hk, ih]
    · have hk : p.1 = ts → ¬ ws < ts := fun h => h ▸ hp
      by_cases hpk : p.1 = ts
      · subst hpk
        simp only [pruneBuckets] at ih
        simp [pruneBuckets, List.filter_cons, hp, mapGet_cons, ih, if_neg hp]
      · simp only [pruneBuckets] at ih
        simp [pruneBuckets, List.filter_cons, hp, mapGet_cons, hpk, ih]

theorem pruneBuckets_pruneBuckets (b : List (ℚ × ℚ)) (ws1 ws2 : ℚ) (h : ws1 ≤ ws2) :
    pruneBuckets (pruneBuckets b ws1) ws2 = pruneBuckets b ws2 := by
  simp only [pruneBuckets, List.filter_filter]
  refine List.filter_congr (fun p _ => ?_)
  by_cases h2 : ws2 < p.1
  · simp [h2, lt_of_le_of_lt h h2]
  · simp [h2]

/-- `Math.floor(t / p) * p` is monotone in `t`, whatever the sign of `p`. -/
theorem roundedTo_mono (p t1 t2 : ℚ) (h : t1 ≤ t2) :
    roundedTo p t1 ≤ roundedTo p t2 := by
  unfold roundedTo
  rcases lt_trichotomy p 0 with hp | hp | hp
  · have hdiv : t2 / p ≤ t1 / p := by
      exact div_le_div_of_nonpos_of_le (le_of_lt hp) h
    have hfl : (⌊t2 / p⌋ : ℤ) ≤ ⌊t1 / p⌋ := Int.floor_mono hdiv
    have hc : (⌊t2 / p⌋ : ℚ) ≤ (⌊t1 / p⌋ : ℚ) := by exact_mod_cast hfl
    exact mul_le_mul_of_nonpos_right hc (le_of_lt hp)
  · simp [hp]
  · have hdiv : t1 / p ≤ t2 / p := by gcongr
    have hfl : (⌊t1 / p⌋ : ℤ) ≤ ⌊t2 / p⌋ := Int.floor_mono hdiv
    have hc : (⌊t1 / p⌋ : ℚ) ≤ (⌊t2 / p⌋ : ℚ) := by exact_mod_cast hfl
    exact mul_le_mul_of_nonneg_right hc (le_of_lt hp)

/-! ### Shared facts about the fixed-window path -/

/-- A `check` under `FIXED_WINDOW` on a live stored entry: the stored count is
incremented by exactly 1 (unconditionally), and the result reports the
unclamped post-increment count. -/
theorem checkFixedWindow_live (cfg : RateLimitConfig) (store : Store) (key : String)
    (now c : ℚ) (entry : Entry)
    (halg : cfg.algorithm = "FIXED_WINDOW")
    (hget : mapGet store key = some entry)
    (hlive : now < entry.resetTime)
    (hcount : entry.count = some c) :
    checkFixedWindow cfg store key now =
      (mapSet store key { entry with count := some (c + 1) },
       { limited := decide (cfg.max < c + 1)
         remaining := some (max (cfg.max - (c + 1)) 0)
         reset := entry.resetTime
         current := some (c + 1)
         limit := cfg.max
         window := cfg.window }) := by
  have hnle : ¬ entry.resetTime ≤ now := not_le.mpr hlive
  have hT : ("FIXED_WINDOW" : String) ≠ "TOKEN_BUCKET" := by decide
  have hS : ("FIXED_WINDOW" : String) ≠ "SLIDING_WINDOW" := by decide
  simp [checkFixedWindow, getOrCreateEntry, hget, if_neg hnle, hcount, jAdd,
    createRateLimitResult, halg, hT, hS, jGt, jSub, jMax]

/-- A `check` under `FIXED_WINDOW` with no stored live entry (missing or
expired) opens a fresh window: count 1, reset `now + window`. -/
theorem checkFixedWindow_fresh (cfg : RateLimitConfig) (store : Store) (key : String)
    (now : ℚ)
    (halg : cfg.algorithm = "FIXED_WINDOW")
    (hgone : mapGet store key = none ∨
      ∃ entry, mapGet store key = some entry ∧ entry.resetTime ≤ now) :
    checkFixedWindow cfg store key now =
      (mapSet store key { count := some 1, resetTime := now + cfg.window },
       { limited := decide (cfg.max < 1)
         remaining := some (max (cfg.max - 1) 0)
         reset := now + cfg.window
         current := some 1
         limit := cfg.max
         window := cfg.window }) := by
  have hstep : getOrCreateEntry cfg store key now = createNewEntry cfg now := by
    rcases hgone with h | ⟨entry, hget, hexp⟩
    · simp [getOrCreateEntry, h]
    · simp [getOrCreateEntry, hget, if_pos hexp]
  have hreset : (if (createNewEntry cfg now).resetTime ≤ now then
      { createNewEntry cfg now with count := some 0, resetTime := now + cfg.window }
      else createNewEntry cfg now) = createNewEntry cfg now := by
    by_cases h : (createNewEntry cfg now).resetTime ≤ now <;> simp [h, createNewEntry]
  have hT : ("FIXED_WINDOW" : String) ≠ "TOKEN_BUCKET" := by decide
  have hS : ("FIXED_WINDOW" : String) ≠ "SLIDING_WINDOW" := by decide
  simp only [checkFixedWindow, hstep, hreset, createNewEntry, jAdd,
    createRateLimitResult, halg, hT, hS, jGt, jSub, jMax]
  norm_num

/-! ### Separator-string injectivity -/

theorem append_sep_inj (c : Char) :
    ∀ (l1 l2 r1 r2 : List Char), c ∉ l1 → c ∉ l2 →
      l1 ++ c :: r1 = l2 ++ c :: r2 → l1 = l2 ∧ r1 = r2 := by
  intro l1
  induction l1 with
  | nil =>
    intro l2 r1 r2 _ h2 heq
    cases l2 with
    | nil => simpa using heq
    | cons x xs =>
      simp only [List.nil_append, List.cons_append, List.cons.injEq] at heq
      exact absurd (heq.1 ▸ List.mem_cons_self x xs) (heq.1 ▸ h2)
  | cons x xs ih =>
    intro l2 r1 r2 h1 h2 heq
    cases l2 with
    | nil =>
      simp only [List.cons_append, List.nil_append, List.cons.injEq] at heq
      exact absurd (heq.1 ▸ List.mem_cons_self x xs) (fun hm => h1 (heq.1 ▸ hm))
    | cons y ys =>
      simp only [List.cons_append, List.cons.injEq] at heq
      have h1' : c ∉ xs := fun hm => h1 (List.mem_cons_of_mem x hm)
      have h2' : c ∉ ys := fun hm => h2 (List.mem_cons_of_mem y hm)
      obtain ⟨hxy, htl⟩ := heq
      obtain ⟨hl, hr⟩ := ih ys r1 r2 h1' h2' htl
      exact ⟨by rw [hxy, hl], hr⟩

/-! ## Claims -/

/-- C1: for the fixed-window algorithm, on every `check` call on a key whose
stored entry is live (`resetTime > now`), the stored count is incremented by
exactly 1 unconditionally (even when the limit is already exceeded), and the
returned result has `current` equal to the unclamped post-increment count,
`limited = (count > max)` evaluated after the increment, and
`remaining = max(max - count, 0)`; in particular, with `max = 2`, three
consecutive checks within one window on the same key return
`limited = [false, false, true]` and `current = [1, 2, 3]`. -/
theorem fixedWindow_live_increment_and_demo (cfg : RateLimitConfig) (store : Store)
    (e i : String) (now c w t1 t2 t3 : ℚ) (entry : Entry)
    (halg : cfg.algorithm = "FIXED_WINDOW")
    (hget : mapGet store (generateKey e i) = some entry)
    (hlive : now < entry.resetTime)
    (hcount : entry.count = some c)
    (h12 : t1 ≤ t2) (h23 : t2 ≤ t3) (h3w : t3 < t1 + w) :
    check cfg store e i now =
      .ok (mapSet store (generateKey e i) { entry with count := some (c + 1) },
        { limited := decide (cfg.max < c + 1)
          remaining := some (max (cfg.max - (c + 1)) 0)
          reset := entry.resetTime
          current := some (c + 1)
          limit := cfg.max
          window := cfg.window })
    ∧ (fixedDemo1 (generateKey e i) w t1).2.limited = false
    ∧ (fixedDemo1 (generateKey e i) w t1).2.current = some 1
    ∧ (fixedDemo2 (generateKey e i) w t1 t2).2.limited = false
    ∧ (fixedDemo2 (generateKey e i) w t1 t2).2.current = some 2
    ∧ (fixedDemo3 (generateKey e i) w t1 t2 t3).2.limited = true
    ∧ (fixedDemo3 (generateKey e i) w t1 t2 t3).2.current = some 3 := by
  have h2w : t2 < t1 + w := lt_of_le_of_lt h23 h3w
  have hd1 : fixedDemo1 (generateKey e i) w t1 =
      (mapSet [] (generateKey e i) { count := some 1, resetTime := t1 + w },
       { limited := decide ((2 : ℚ) < 1)
         remaining := some (max ((2 : ℚ) - 1) 0)
         reset := t1 + w
         current := some 1
         limit := 2
         window := w }) := by
    unfold fixedDemo1
    rw [checkFixedWindow_fresh (fixedCfg w) [] (generateKey e i) t1 rfl (Or.inl rfl)]
    simp [fixedCfg]
  have hd2 : fixedDemo2 (generateKey e i) w t1 t2 =
      (mapSet (fixedDemo1 (generateKey e i) w t1).1 (generateKey e i)
        { count := some (1 + 1), resetTime := t1 + w },
       { limited := decide ((2 : ℚ) < 1 + 1)
         remaining := some (max ((2 : ℚ) - (1 + 1)) 0)
         reset := t1 + w
         current := some (1 + 1)
         limit := 2
         window := w }) := by
    unfold fixedDemo2
    rw [checkFixedWindow_live (fixedCfg w) (fixedDemo1 (generateKey e i) w t1).1
      (generateKey e i) t2 1 { count := some 1, resetTime := t1 + w } rfl
      (by rw [hd1]; exact mapGet_mapSet_self _ _ _) h2w rfl]
    simp [fixedCfg]
  have hd3 : fixedDemo3 (generateKey e i) w t1 t2 t3 =
      (mapSet (fixedDemo2 (generateKey e i) w t1 t2).1 (generateKey e i)
        { count := some (1 + 1 + 1), resetTime := t1 + w },
       { limited := decide ((2 : ℚ) < 1 + 1 + 1)
         remaining := some (max ((2 : ℚ) - (1 + 1 + 1)) 0)
         reset := t1 + w
         current := some (1 + 1 + 1)
         limit := 2
         window := w }) := by
    unfold fixedDemo3
    rw [checkFixedWindow_live (fixedCfg w) (fixedDemo2 (generateKey e i) w t1 t2).1
      (generateKey e i) t3 (1 + 1) { count := some (1 + 1), resetTime := t1 + w } rfl
      (by rw [hd2]; exact mapGet_mapSet_self _ _ _) h3w rfl]
    simp [fixedCfg]
  refine ⟨?_, ?_, ?_, ?_, ?_, ?_, ?_⟩
  · have hd : check cfg store e i now = .ok (checkFixedWindow cfg store (generateKey e i) now) := by
      simp [check, halg]
    rw [hd, checkFixedWindow_live cfg store (generateKey e i) now c entry halg hget hlive hcount]
  · rw [hd1]; norm_num
  · rw [hd1]
  · rw [hd2]; norm_num
  · rw [hd2]; norm_num
  · rw [hd3]; norm_num
  · rw [hd3]; norm_num

/-- Witness for C1 at a concrete input: config `max = 2`, a stored live entry
with count 1 at time 10, and the three-call scenario at times 0, 1, 2 in a
window of length 1000. -/
theorem fixedWindow_live_increment_and_demo_witness :
    ((10 : ℚ) < entLive.resetTime ∧ (1 : ℚ) ≤ 2 ∧ (2 : ℚ) < 0 + 1000)
    ∧ (check cfgFW storeLive "x" "y" 10 =
      .ok (mapSet storeLive (generateKey "x" "y") { entLive with count := some (1 + 1) },
        { limited := decide (cfgFW.max < 1 + 1)
          remaining := some (max (cfgFW.max - (1 + 1)) 0)
          reset := entLive.resetTime
          current := some (1 + 1)
          limit := cfgFW.max
          window := cfgFW.window })
      ∧ (fixedDemo1 (generateKey "x" "y") 1000 0).2.limited = false
      ∧ (fixedDemo1 (generateKey "x" "y") 1000 0).2.current = some 1
      ∧ (fixedDemo2 (generateKey "x" "y") 1000 0 1).2.limited = false
      ∧ (fixedDemo2 (generateKey "x" "y") 1000 0 1).2.current = some 2
      ∧ (fixedDemo3 (generateKey "x" "y") 1000 0 1 2).2.limited = true
      ∧ (fixedDemo3 (generateKey "x" "y") 1000 0 1 2).2.current = some 3) := by
  refine ⟨⟨by norm_num [entLive], by norm_num, by norm_num⟩, ?_⟩
  exact fixedWindow_live_increment_and_demo cfgFW storeLive "x" "y" 10 1 1000 0 1 2
    entLive rfl (by decide) (by norm_num [entLive]) rfl
    (by norm_num) (by norm_num) (by norm_num)

/-- C10: under the fixed-window algorithm, `get` never applies window expiry:
for a stored entry with `resetTime <= now` it reports the stale count as
`current` and `limited = (count > max)` computed from that stale count, while
a `check` at the same instant opens a fresh window and reports `current = 1`,
`limited = false`. -/
theorem fixedWindow_get_stale (cfg : RateLimitConfig) (store : Store)
    (e i : String) (now c : ℚ) (entry : Entry)
    (halg : cfg.algorithm = "FIXED_WINDOW")
    (hget : mapGet store (generateKey e i) = some entry)
    (hexp : entry.resetTime ≤ now)
    (hcount : entry.count = some c)
    (hmax : (1 : ℚ) ≤ cfg.max) :
    (get cfg store e i now).1 = store
    ∧ (get cfg store e i now).2.current = some c
    ∧ (get cfg store e i now).2.limited = decide (cfg.max < c)
    ∧ (get cfg store e i now).2.reset = entry.resetTime
    ∧ check cfg store e i now =
        .ok (mapSet store (generateKey e i) { count := some 1, resetTime := now + cfg.window },
          { limited := false
            remaining := some (max (cfg.max - 1) 0)
            reset := now + cfg.window
            current := some 1
            limit := cfg.max
            window := cfg.window }) := by
  have hT : ("FIXED_WINDOW" : String) ≠ "TOKEN_BUCKET" := by decide
  have hS : ("FIXED_WINDOW" : String) ≠ "SLIDING_WINDOW" := by decide
  have hgetres : get cfg store e i now = (store, createRateLimitResult cfg entry) := by
    simp [get, hget, halg, hS]
  have hlim : decide (cfg.max < 1) = false := decide_eq_false (not_lt.mpr hmax)
  refine ⟨?_, ?_, ?_, ?_, ?_⟩
  · rw [hgetres]
  · rw [hgetres]
    simp [createRateLimitResult, halg, hT, hS, hcount]
  · rw [hgetres]
    simp [createRateLimitResult, halg, hT, hS, hcount, jGt]
  · rw [hgetres]
    simp [createRateLimitResult, halg, hT, hS]
  · have hd : check cfg store e i now = .ok (checkFixedWindow cfg store (generateKey e i) now) := by
      simp [check, halg]
    rw [hd, checkFixedWindow_fresh cfg store (generateKey e i) now halg
      (Or.inr ⟨entry, hget, hexp⟩), hlim]

/-- Witness for C10: a fixed-window entry with count 5 already expired at
time 100. -/
theorem fixedWindow_get_stale_witness :
    (entStale.resetTime ≤ (100 : ℚ) ∧ (1 : ℚ) ≤ cfgFW.max)
    ∧ (get cfgFW storeStale "x" "y" 100).1 = storeStale
    ∧ (get cfgFW storeStale "x" "y" 100).2.current = some 5
    ∧ (get cfgFW storeStale "x" "y" 100).2.limited = decide (cfgFW.max < 5)
    ∧ (get cfgFW storeStale "x" "y" 100).2.reset = entStale.resetTime
    ∧ check cfgFW storeStale "x" "y" 100 =
        .ok (mapSet storeStale (generateKey "x" "y")
              { count := some 1, resetTime := 100 + cfgFW.window },
          { limited := false
            remaining := some (max (cfgFW.max - 1) 0)
            reset := 100 + cfgFW.window
            current := some 1
            limit := cfgFW.max
            window := cfgFW.window }) := by
  refine ⟨⟨by norm_num [entStale], by norm_num [cfgFW]⟩, ?_⟩
  exact fixedWindow_get_stale cfgFW storeStale "x" "y" 100 5 entStale rfl (by decide)
    (by norm_num [entStale]) rfl (by norm_num [cfgFW])

/-- C9: under the token-bucket algorithm, `get` on an unseen key builds the
fixed-window-shaped `createNewEntry` (which has no `tokens` field) and reads
the absent field: the result's `current` and `remaining` are `NaN` (modelled
`none`) while `limited` is `false`. -/
theorem tokenBucket_get_unseen_nan (cfg : RateLimitConfig) (store : Store)
    (e i : String) (now : ℚ)
    (halg : cfg.algorithm = "TOKEN_BUCKET")
    (hget : mapGet store (generateKey e i) = none) :
    (createNewEntry cfg now).tokens = none
    ∧ (createNewEntry cfg now).count = some 0
    ∧ get cfg store e i now =
        (store,
         { limited := false
           remaining := none
           reset := now + cfg.window
           current := none
           limit := cfg.max
           window := cfg.window }) := by
  refine ⟨rfl, rfl, ?_⟩
  simp [get, hget, createNewEntry, createRateLimitResult, halg, jLtZero, jFloor,
    jMax, jSub]

/-- Witness for C9: empty store, token-bucket config. -/
theorem tokenBucket_get_unseen_nan_witness :
    (mapGet ([] : Store) (generateKey "q" "r") = none)
    ∧ (createNewEntry cfgTB 0).tokens = none
    ∧ (createNewEntry cfgTB 0).count = some 0
    ∧ get cfgTB [] "q" "r" 0 =
        ([],
         { limited := false
           remaining := none
           reset := 0 + cfgTB.window
           current := none
           limit := cfgTB.max
           window := cfgTB.window }) := by
  refine ⟨rfl, ?_⟩
  exact tokenBucket_get_unseen_nan cfgTB [] "q" "r" 0 rfl rfl

/-- C2: for the token-bucket algorithm, on every `check` call (the entry being
the stored one, or the fresh full default for an unseen key): with
`elapsed = now - lastRefill` and `added = floor(elapsed / refillInterval) * refillRate`,
if `added > 0` then the tokens become exactly `min(max(tokens + added, added), max)`
and `lastRefill` becomes `now`, while `added = 0` (or negative) leaves both
unchanged; then 1 token is subtracted unconditionally (possibly below zero),
and the result has `limited = (tokens < 0)` and `remaining = max(floor(tokens), 0)`
evaluated after the subtraction. -/
theorem tokenBucket_check_spec (cfg : RateLimitConfig) (store : Store) (e i : String)
    (now t lr added tokens1 lr1 : ℚ)
    (halg : cfg.algorithm = "TOKEN_BUCKET")
    (hri : 0 < cfg.refillInterval)
    (htok : (tokenEntry cfg store (generateKey e i) now).tokens = some t)
    (hlr : (tokenEntry cfg store (generateKey e i) now).lastRefill = some lr)
    (hadded : added = (⌊(now - lr) / cfg.refillInterval⌋ : ℚ) * cfg.refillRate)
    (htoks : tokens1 = if 0 < added then min (max (t + added) added) cfg.max else t)
    (hlr1 : lr1 = if 0 < added then now else lr) :
    check cfg store e i now =
      .ok (mapSet store (generateKey e i)
            { tokenEntry cfg store (generateKey e i) now with
                tokens := some (tokens1 - 1)
                lastRefill := some lr1 },
        { limited := decide (tokens1 - 1 < 0)
          remaining := some (max (⌊tokens1 - 1⌋ : ℚ) 0)
          reset := (tokenEntry cfg store (generateKey e i) now).resetTime
          current := some (cfg.max - (tokens1 - 1))
          limit := cfg.max
          window := cfg.window }) := by
  have hF : ("TOKEN_BUCKET" : String) ≠ "FIXED_WINDOW" := by decide
  have hS : ("TOKEN_BUCKET" : String) ≠ "SLIDING_WINDOW" := by decide
  have hd : check cfg store e i now =
      .ok (checkTokenBucket cfg store (generateKey e i) now) := by
    simp [check, halg, hF, hS]
  rw [hd]
  by_cases hpos : 0 < added
  · simp only [checkTokenBucket, htok, hlr, jSub, jDivC, jFloor, jMulC, Option.map_some',
      jGtZero, ← hadded, hpos, decide_True, if_true, jAdd, jMax, jMin,
      createRateLimitResult, halg, if_pos rfl, jLtZero]
    rw [htoks, hlr1]
    simp [hpos, jFloor, jMax, jSub, jLtZero]
  · simp only [checkTokenBucket, htok, hlr, jSub, jDivC, jFloor, jMulC, Option.map_some',
      jGtZero, ← hadded, hpos, decide_False, if_false, jAdd, jMax, jMin,
      createRateLimitResult, halg, if_pos rfl, jLtZero]
    rw [htoks, hlr1]
    simp [hpos, htok, jFloor, jMax, jSub, jLtZero, hlr]

/-- Witness for C2: a stored bucket in deficit (tokens −1, last refill at 0)
checked at time 1200 under `refillInterval = 500`, `refillRate = 1`:
two ticks add 2 tokens, clamped to `min(max(-1+2, 2), 2) = 2`, then the spend
leaves 1 token. -/
theorem tokenBucket_check_spec_witness :
    ((0 : ℚ) < cfgTB.refillInterval
      ∧ (tokenEntry cfgTB storeTok (generateKey "x" "y") 1200).tokens = some (-1)
      ∧ (tokenEntry cfgTB storeTok (generateKey "x" "y") 1200).lastRefill = some 0
      ∧ (2 : ℚ) = (⌊((1200 : ℚ) - 0) / cfgTB.refillInterval⌋ : ℚ) * cfgTB.refillRate)
    ∧ check cfgTB storeTok "x" "y" 1200 =
      .ok (mapSet storeTok (generateKey "x" "y")
            { tokenEntry cfgTB storeTok (generateKey "x" "y") 1200 with
                tokens := some ((2 : ℚ) - 1)
                lastRefill := some 1200 },
        { limited := decide ((2 : ℚ) - 1 < 0)
          remaining := some (max (⌊(2 : ℚ) - 1⌋ : ℚ) 0)
          reset := (tokenEntry cfgTB storeTok (generateKey "x" "y") 1200).resetTime
          current := some (cfgTB.max - ((2 : ℚ) - 1))
          limit := cfgTB.max
          window := cfgTB.window }) := by
  have h1 : (0 : ℚ) < cfgTB.refillInterval := by norm_num [cfgTB]
  have h2 : (tokenEntry cfgTB storeTok (generateKey "x" "y") 1200).tokens = some (-1) := by decide
  have h3 : (tokenEntry cfgTB storeTok (generateKey "x" "y") 1200).lastRefill = some 0 := by decide
  have h4 : (2 : ℚ) = (⌊((1200 : ℚ) - 0) / cfgTB.refillInterval⌋ : ℚ) * cfgTB.refillRate := by
    norm_num [cfgTB]
  refine ⟨⟨h1, h2, h3, h4⟩, ?_⟩
  have := tokenBucket_check_spec cfgTB storeTok "x" "y" 1200 (-1) 0 2 2 1200
    rfl h1 h2 h3 h4 (by norm_num [cfgTB]) (by norm_num)
  simpa using this

/-- Any successful `check` writes back only at its own key: the new store is a
`mapSet` of the old one at `generateKey endpoint identifier`. -/
theorem check_ok_mapSet (cfg : RateLimitConfig) (store : Store) (e i : String) (now : ℚ)
    (st : Store) (res : RateLimitResult)
    (hok : check cfg store e i now = .ok (st, res)) :
    ∃ v, st = mapSet store (generateKey e i) v := by
  unfold check at hok
  split_ifs at hok with hF hS hT
  · exact ⟨_, (congrArg Prod.fst (Except.ok.inj hok)).symm⟩
  · rcases hbk : ((mapGet store (generateKey e i)).getD
        { count := some 0, buckets := some [], resetTime := now + cfg.window }).buckets with
      _ | b
    · simp only [checkSlidingWindow, hbk] at hok
      cases hok
    · simp only [checkSlidingWindow, hbk] at hok
      exact ⟨_, (congrArg Prod.fst (Except.ok.inj hok)).symm⟩
  · exact ⟨_, (congrArg Prod.fst (Except.ok.inj hok)).symm⟩

/-- C5 counterexample: a token-bucket entry (`tokens`/`lastRefill` populated)
whose `resetTime` has passed is deleted by a cleanup pass, contradicting the
claim that the sweep never deletes token-bucket entries. -/
theorem cleanup_deletes_token_entry_cex :
    ({ tokens := some 5, lastRefill := some 0, resetTime := 100 } : Entry).tokens = some 5
    ∧ cleanupExpiredEntries
        [("a:b", { tokens := some 5, lastRefill := some 0, resetTime := 100 })] 100 = []
    ∧ mapGet (cleanupExpiredEntries
        [("a:b", { tokens := some 5, lastRefill := some 0, resetTime := 100 })] 100) "a:b" =
      none := by
  refine ⟨rfl, ?_, ?_⟩ <;> decide

/-- C5 amended: the eviction sweep deletes exactly those stored entries whose
`resetTime` has passed (`resetTime <= now`), regardless of algorithm shape —
in particular a token-bucket entry with `resetTime <= now` is deleted too, so
token-bucket entries are not exempt from the sweep. -/
theorem cleanup_filters_by_resetTime (store : Store) (now : ℚ) (kv : String × Entry) :
    kv ∈ cleanupExpiredEntries store now ↔ (kv ∈ store ∧ now < kv.2.resetTime) := by
  simp [cleanupExpiredEntries, List.mem_filter]

/-- C6 counterexample: `generateKey` is not injective — the distinct pairs
`("a:b", "c")` and `("a", "b:c")` produce the same key, and the two pairs
share counted state: after a `check` for the first pair, a first `check` for
the second pair already reports `current = 2` (instead of 1 from an empty
store). -/
theorem generateKey_collision_cex :
    generateKey "a:b" "c" = generateKey "a" "b:c"
    ∧ ("a:b" : String) ≠ "a"
    ∧ (checkFixedWindow cfgFW (checkFixedWindow cfgFW [] (generateKey "a:b" "c") 0).1
        (generateKey "a" "b:c") 0).2.current = some 2
    ∧ (checkFixedWindow cfgFW [] (generateKey "a" "b:c") 0).2.current = some 1 := by
  have hk : generateKey "a:b" "c" = generateKey "a" "b:c" := by decide
  have h1 := checkFixedWindow_fresh cfgFW [] (generateKey "a:b" "c") 0 rfl (Or.inl rfl)
  refine ⟨hk, by decide, ?_, ?_⟩
  · rw [show (checkFixedWindow cfgFW [] (generateKey "a:b" "c") 0).1 =
        mapSet [] (generateKey "a:b" "c") { count := some 1, resetTime := 0 + cfgFW.window }
      from by rw [h1]]
    rw [checkFixedWindow_live cfgFW _ (generateKey "a" "b:c") 0 1
      { count := some 1, resetTime := 0 + cfgFW.window } rfl
      (by rw [← hk]; exact mapGet_mapSet_self _ _ _) (by norm_num [cfgFW]) rfl]
    norm_num
  · rw [checkFixedWindow_fresh cfgFW [] (generateKey "a" "b:c") 0 rfl (Or.inl rfl)]

/-- C6 amended: `generateKey` is injective on pairs whose endpoint does not
contain the separator `':'` (in general it collides, see the counterexample),
and non-colliding pairs never share counted state: a successful `check` for
one pair leaves the stored entry of every other key unchanged. -/
theorem generateKey_inj_and_isolation (e1 i1 e2 i2 e i eo io : String)
    (cfg : RateLimitConfig) (store : Store) (now : ℚ) (st : Store) (res : RateLimitResult)
    (h1 : ':' ∉ e1.data) (h2 : ':' ∉ e2.data)
    (heq : generateKey e1 i1 = generateKey e2 i2)
    (hne : generateKey eo io ≠ generateKey e i)
    (hok : check cfg store e i now = .ok (st, res)) :
    (e1 = e2 ∧ i1 = i2)
    ∧ mapGet st (generateKey eo io) = mapGet store (generateKey eo io) := by
  constructor
  · have hdata : e1.data ++ ':' :: i1.data = e2.data ++ ':' :: i2.data := by
      have h := congrArg String.data heq
      simpa [generateKey, String.data_append] using h
    obtain ⟨hl, hr⟩ := append_sep_inj ':' e1.data e2.data i1.data i2.data h1 h2 hdata
    exact ⟨String.ext hl, String.ext hr⟩
  · obtain ⟨v, hv⟩ := check_ok_mapSet cfg store e i now st res hok
    rw [hv, mapGet_mapSet_ne _ _ _ _ hne]

/-- Witness for the amended C6: separator-free pair `("a","b")`, a check on
`("x","y")` over the empty store, and an unrelated key `("u","v")`. -/
theorem generateKey_inj_and_isolation_witness :
    (Char.ofNat 58 ∉ ("a" : String).data
      ∧ generateKey "a" "b" = generateKey "a" "b"
      ∧ generateKey "u" "v" ≠ generateKey "x" "y")
    ∧ (("a" : String) = "a" ∧ ("b" : String) = "b")
    ∧ mapGet (mapSet ([] : Store) (generateKey "x" "y")
        { count := some 1, resetTime := 0 + cfgFW.window }) (generateKey "u" "v") =
      mapGet ([] : Store) (generateKey "u" "v") := by
  have hok : check cfgFW [] "x" "y" 0 =
      .ok (mapSet [] (generateKey "x" "y") { count := some 1, resetTime := 0 + cfgFW.window },
        { limited := decide (cfgFW.max < 1)
          remaining := some (max (cfgFW.max - 1) 0)
          reset := 0 + cfgFW.window
          current := some 1
          limit := cfgFW.max
          window := cfgFW.window }) := by
    have hd : check cfgFW [] "x" "y" 0 =
        .ok (checkFixedWindow cfgFW [] (generateKey "x" "y") 0) := by
      simp [check, cfgFW]
    rw [hd, checkFixedWindow_fresh cfgFW [] (generateKey "x" "y") 0 rfl (Or.inl rfl)]
  refine ⟨⟨by decide, rfl, by decide⟩, ?_⟩
  exact generateKey_inj_and_isolation "a" "b" "a" "b" "x" "y" "u" "v" cfgFW [] 0 _ _
    (by decide) (by decide) rfl (by decide) hok

/-- C3: for the sliding-window algorithm, on every `check` call with
`roundedNow = floor(now/precision)*precision`: every bucket with timestamp
`<= roundedNow - window` is removed (`ts`), surviving buckets keep their
counts (`tsOld`), the bucket at `roundedNow` is incremented by 1, the returned
`current` is the sum of the surviving buckets' counts plus the new request,
and the returned `reset` is the oldest surviving bucket's timestamp plus the
window (the no-bucket fallback `roundedNow + window` is unreachable here
because the current bucket was just created, witnessed by `b' ≠ []`). -/
theorem slidingWindow_check_spec (cfg : RateLimitConfig) (store : Store) (e i : String)
    (now ts tsOld : ℚ) (b kept bNew : List (ℚ × ℚ)) (entry0 entry1 : Entry)
    (halg : cfg.algorithm = "SLIDING_WINDOW")
    (hp : 0 < cfg.precision)
    (hw : 0 < cfg.window)
    (h0 : entry0 = (mapGet store (generateKey e i)).getD
      { count := some 0, buckets := some [], resetTime := now + cfg.window })
    (hb : entry0.buckets = some b)
    (hkept : kept = pruneBuckets b (roundedTo cfg.precision now - cfg.window))
    (hbNew : bNew = mapSet kept (roundedTo cfg.precision now)
      ((mapGet kept (roundedTo cfg.precision now)).getD 0 + 1))
    (hentry1 : entry1 = { entry0 with
      count := some (bucketsTotal kept + 1)
      buckets := some bNew
      resetTime := oldestTimestamp bNew + cfg.window })
    (hts : ts ≤ roundedTo cfg.precision now - cfg.window)
    (htsOld1 : tsOld ≠ roundedTo cfg.precision now)
    (htsOld2 : roundedTo cfg.precision now - cfg.window < tsOld) :
    check cfg store e i now =
      .ok (mapSet store (generateKey e i) entry1,
        { limited := decide (cfg.max < bucketsTotal kept + 1)
          remaining := some (max (cfg.max - (bucketsTotal kept + 1)) 0)
          reset := oldestTimestamp bNew + cfg.window
          current := some (bucketsTotal kept + 1)
          limit := cfg.max
          window := cfg.window })
    ∧ entry1.buckets = some bNew
    ∧ mapGet bNew ts = none
    ∧ mapGet bNew (roundedTo cfg.precision now) =
        some ((mapGet b (roundedTo cfg.precision now)).getD 0 + 1)
    ∧ mapGet bNew tsOld = mapGet b tsOld
    ∧ bNew ≠ [] := by
  have hF : ("SLIDING_WINDOW" : String) ≠ "FIXED_WINDOW" := by decide
  have hT : ("SLIDING_WINDOW" : String) ≠ "TOKEN_BUCKET" := by decide
  have hwsrn : roundedTo cfg.precision now - cfg.window < roundedTo cfg.precision now := by
    linarith
  have htsne : ts ≠ roundedTo cfg.precision now := fun h => absurd (h ▸ hts) (not_le.mpr hwsrn)
  have hlen : 0 < bNew.length := by
    rw [hbNew]
    exact List.length_pos.mpr (mapSet_ne_nil _ _ _)
  refine ⟨?_, ?_, ?_, ?_, ?_, ?_⟩
  · have hd : check cfg store e i now =
        checkSlidingWindow cfg store (generateKey e i) now := by
      simp [check, halg, hF]
    rw [hd]
    simp only [checkSlidingWindow, ← h0, hb, ← hkept, ← hbNew, if_pos hlen,
      createRateLimitResult, halg, hT, if_pos rfl, hentry1]
    have hSneT : ¬ cfg.algorithm = "TOKEN_BUCKET" := by rw [halg]; exact hT
    simp [hSneT, halg, jGt, jSub, jMax]
  · rw [hentry1]
  · rw [hbNew, mapGet_mapSet_ne _ _ _ _ htsne, hkept, mapGet_pruneBuckets,
      if_neg (not_lt.mpr hts)]
  · rw [hbNew, mapGet_mapSet_self, hkept, mapGet_pruneBuckets, if_pos hwsrn]
  · rw [hbNew, mapGet_mapSet_ne _ _ _ _ htsOld1, hkept, mapGet_pruneBuckets,
      if_pos htsOld2]
  · rw [hbNew]
    exact mapSet_ne_nil _ _ _

/-- Witness for C3: sliding config (`max = 5`, `window = 1000`,
`precision = 100`), a stored entry with buckets at 0 (count 2, expired) and
200 (count 3, surviving), checked at `now = 1100`. -/
theorem slidingWindow_check_spec_witness :
    ((0 : ℚ) < cfgSW.precision ∧ (0 : ℚ) < cfgSW.window
      ∧ ((mapGet storeSW (generateKey "p" "q")).getD
          { count := some 0, buckets := some [], resetTime := 1100 + cfgSW.window }).buckets =
        some [(0, 2), (200, 3)]
      ∧ (0 : ℚ) ≤ roundedTo cfgSW.precision 1100 - cfgSW.window
      ∧ (200 : ℚ) ≠ roundedTo cfgSW.precision 1100
      ∧ roundedTo cfgSW.precision 1100 - cfgSW.window < (200 : ℚ))
    ∧ (check cfgSW storeSW "p" "q" 1100 =
        .ok (mapSet storeSW (generateKey "p" "q")
          { ((mapGet storeSW (generateKey "p" "q")).getD
              { count := some 0, buckets := some [], resetTime := 1100 + cfgSW.window }) with
            count := some (bucketsTotal (pruneBuckets [(0, 2), (200, 3)]
              (roundedTo cfgSW.precision 1100 - cfgSW.window)) + 1)
            buckets := some (mapSet (pruneBuckets [(0, 2), (200, 3)]
                (roundedTo cfgSW.precision 1100 - cfgSW.window))
              (roundedTo cfgSW.precision 1100)
              ((mapGet (pruneBuckets [(0, 2), (200, 3)]
                  (roundedTo cfgSW.precision 1100 - cfgSW.window))
                (roundedTo cfgSW.precision 1100)).getD 0 + 1))
            resetTime := oldestTimestamp (mapSet (pruneBuckets [(0, 2), (200, 3)]
                (roundedTo cfgSW.precision 1100 - cfgSW.window))
              (roundedTo cfgSW.precision 1100)
              ((mapGet (pruneBuckets [(0, 2), (200, 3)]
                  (roundedTo cfgSW.precision 1100 - cfgSW.window))
                (roundedTo cfgSW.precision 1100)).getD 0 + 1)) + cfgSW.window },
          { limited := decide (cfgSW.max < bucketsTotal (pruneBuckets [(0, 2), (200, 3)]
              (roundedTo cfgSW.precision 1100 - cfgSW.window)) + 1)
            remaining := some (max (cfgSW.max - (bucketsTotal (pruneBuckets [(0, 2), (200, 3)]
              (roundedTo cfgSW.precision 1100 - cfgSW.window)) + 1)) 0)
            reset := oldestTimestamp (mapSet (pruneBuckets [(0, 2), (200, 3)]
                (roundedTo cfgSW.precision 1100 - cfgSW.window))
              (roundedTo cfgSW.precision 1100)
              ((mapGet (pruneBuckets [(0, 2), (200, 3)]
                  (roundedTo cfgSW.precision 1100 - cfgSW.window))
                (roundedTo cfgSW.precision 1100)).getD 0 + 1)) + cfgSW.window
            current := some (bucketsTotal (pruneBuckets [(0, 2), (200, 3)]
              (roundedTo cfgSW.precision 1100 - cfgSW.window)) + 1)
            limit := cfgSW.max
            window := cfgSW.window })
      ∧ mapGet (mapSet (pruneBuckets [(0, 2), (200, 3)]
            (roundedTo cfgSW.precision 1100 - cfgSW.window))
          (roundedTo cfgSW.precision 1100)
          ((mapGet (pruneBuckets [(0, 2), (200, 3)]
              (roundedTo cfgSW.precision 1100 - cfgSW.window))
            (roundedTo cfgSW.precision 1100)).getD 0 + 1)) (0 : ℚ) = none
      ∧ mapGet (mapSet (pruneBuckets [(0, 2), (200, 3)]
            (roundedTo cfgSW.precision 1100 - cfgSW.window))
          (roundedTo cfgSW.precision 1100)
          ((mapGet (pruneBuckets [(0, 2), (200, 3)]
              (roundedTo cfgSW.precision 1100 - cfgSW.window))
            (roundedTo cfgSW.precision 1100)).getD 0 + 1)) (200 : ℚ) =
        mapGet [(0, 2), (200, 3)] (200 : ℚ)) := by
  have hrt : roundedTo cfgSW.precision 1100 = 1100 := by
    norm_num [roundedTo, cfgSW]
  have h1 : (0 : ℚ) < cfgSW.precision := by norm_num [cfgSW]
  have h2 : (0 : ℚ) < cfgSW.window := by norm_num [cfgSW]
  have h3 : ((mapGet storeSW (generateKey "p" "q")).getD
      { count := some 0, buckets := some [], resetTime := 1100 + cfgSW.window }).buckets =
      some [(0, 2), (200, 3)] := by decide
  have h4 : (0 : ℚ) ≤ roundedTo cfgSW.precision 1100 - cfgSW.window := by
    rw [hrt]; norm_num [cfgSW]
  have h5 : (200 : ℚ) ≠ roundedTo cfgSW.precision 1100 := by
    rw [hrt]; norm_num
  have h6 : roundedTo cfgSW.precision 1100 - cfgSW.window < (200 : ℚ) := by
    rw [hrt]; norm_num [cfgSW]
  refine ⟨⟨h1, h2, h3, h4, h5, h6⟩, ?_⟩
  have h := slidingWindow_check_spec cfgSW storeSW "p" "q" 1100 0 200
    [(0, 2), (200, 3)] _ _ _ _ rfl h1 h2 rfl h3 rfl rfl rfl h4 h5 h6
  exact ⟨h.1, h.2.2.1, h.2.2.2.2.1⟩

/-- A successful `mapGet` returns a pair of the list. -/
theorem mapGet_eq_some_mem {α β : Type} [DecidableEq α] (m : List (α × β)) (k : α) (v : β)
    (h : mapGet m k = some v) : (k, v) ∈ m := by
  induction m with
  | nil => cases h
  | cons p ps ih =>
    obtain ⟨a, c⟩ := p
    rw [mapGet_cons] at h
    by_cases hp : a = k
    · rw [if_pos hp] at h
      obtain rfl := Option.some.inj h
      subst hp
      exact List.mem_cons_self _ _
    · rw [if_neg hp] at h
      exact List.mem_cons_of_mem _ (ih h)

/-- C4 counterexample: the constructor accepts an unrecognized algorithm
without error (it performs no validation), and `check` then fails on every
call — the error is per-call, not construction-time. -/
theorem check_unknown_algorithm_cex :
    mkRateLimiter { algorithm := some "BOGUS" } = { DEFAULT_CONFIG with algorithm := "BOGUS" }
    ∧ check (mkRateLimiter { algorithm := some "BOGUS" }) [] "a" "b" 0 =
        .error ("Unknown algorithm: " ++ "BOGUS") := by
  constructor
  · rfl
  · rfl

/-- C4 amended: `check` never fails for any string inputs when the configured
algorithm is one of the three recognized values (given well-formed
sliding-window entries); an unrecognized algorithm is not detected at
construction — the constructor stores it as-is — and is instead reported as
an `Unknown algorithm` error on every `check` call. -/
theorem check_total_recognized (cfg : RateLimitConfig) (store : Store) (e i aStr : String)
    (now : ℚ)
    (halg : cfg.algorithm = "FIXED_WINDOW" ∨ cfg.algorithm = "SLIDING_WINDOW" ∨
      cfg.algorithm = "TOKEN_BUCKET")
    (hwf : cfg.algorithm = "SLIDING_WINDOW" → ∀ kv, kv ∈ store → kv.2.buckets ≠ none)
    (hbad1 : aStr ≠ "FIXED_WINDOW") (hbad2 : aStr ≠ "SLIDING_WINDOW")
    (hbad3 : aStr ≠ "TOKEN_BUCKET") :
    (check cfg store e i now).isOk = true
    ∧ (mkRateLimiter { algorithm := some aStr }).algorithm = aStr
    ∧ check (mkRateLimiter { algorithm := some aStr }) store e i now =
        .error ("Unknown algorithm: " ++ aStr) := by
  refine ⟨?_, rfl, ?_⟩
  · rcases halg with h | h | h
    · simp [check, h, Except.isOk, Except.toBool]
    · have hF : ("SLIDING_WINDOW" : String) ≠ "FIXED_WINDOW" := by decide
      rcases hmg : mapGet store (generateKey e i) with _ | v
      · simp [check, h, hF, checkSlidingWindow, hmg, Except.isOk, Except.toBool]
      · rcases hbk : v.buckets with _ | b
        · exact absurd hbk
            (hwf h (generateKey e i, v) (mapGet_eq_some_mem _ _ _ hmg))
        · simp [check, h, hF, checkSlidingWindow, hmg, hbk, Except.isOk, Except.toBool]
    · have hF : ("TOKEN_BUCKET" : String) ≠ "FIXED_WINDOW" := by decide
      have hS : ("TOKEN_BUCKET" : String) ≠ "SLIDING_WINDOW" := by decide
      simp [check, h, hF, hS, Except.isOk, Except.toBool]
  · have halg' : (mkRateLimiter { algorithm := some aStr }).algorithm = aStr := rfl
    simp [check, halg', hbad1, hbad2, hbad3]

/-- Witness for the amended C4: a fixed-window limiter over the empty store,
and the unrecognized selector string `"BOGUS"`. -/
theorem check_total_recognized_witness :
    (cfgFW.algorithm = "FIXED_WINDOW" ∧ ("BOGUS" : String) ≠ "FIXED_WINDOW")
    ∧ (check cfgFW [] "a" "b" 0).isOk = true
    ∧ (mkRateLimiter { algorithm := some "BOGUS" }).algorithm = "BOGUS"
    ∧ check (mkRateLimiter { algorithm := some "BOGUS" }) [] "a" "b" 0 =
        .error ("Unknown algorithm: " ++ "BOGUS") := by
  refine ⟨⟨rfl, by decide⟩, ?_⟩
  exact check_total_recognized cfgFW [] "a" "b" "BOGUS" 0 (Or.inl rfl)
    (fun h => absurd h (by decide)) (by decide) (by decide) (by decide)

/-! ### Facts about the `get` pruning used by the frame claim -/

theorem getSlidingPrune_buckets (cfg : RateLimitConfig) (entry : Entry) (b : List (ℚ × ℚ))
    (t : ℚ) :
    (getSlidingPrune cfg entry b t).buckets =
      some (pruneBuckets b (roundedTo cfg.precision t - cfg.window)) := by
  simp only [getSlidingPrune]
  split_ifs <;> rfl

theorem getSlidingPrune_count (cfg : RateLimitConfig) (entry : Entry) (b : List (ℚ × ℚ))
    (t : ℚ) :
    (getSlidingPrune cfg entry b t).count =
      some (bucketsTotal (pruneBuckets b (roundedTo cfg.precision t - cfg.window))) := by
  simp only [getSlidingPrune]
  split_ifs <;> rfl

theorem getSlidingPrune_tokens (cfg : RateLimitConfig) (entry : Entry) (b : List (ℚ × ℚ))
    (t : ℚ) : (getSlidingPrune cfg entry b t).tokens = entry.tokens := by
  simp only [getSlidingPrune]
  split_ifs <;> rfl

theorem getSlidingPrune_lastRefill (cfg : RateLimitConfig) (entry : Entry) (b : List (ℚ × ℚ))
    (t : ℚ) : (getSlidingPrune cfg entry b t).lastRefill = entry.lastRefill := by
  simp only [getSlidingPrune]
  split_ifs <;> rfl

/-- `get` under a non-sliding algorithm never touches the store. -/
theorem get_store_nonsliding (cfg : RateLimitConfig) (store : Store) (e i : String) (now : ℚ)
    (halg : cfg.algorithm ≠ "SLIDING_WINDOW") :
    (get cfg store e i now).1 = store := by
  rcases hmg : mapGet store (generateKey e i) with _ | entry
  · simp [get, hmg]
  · simp [get, hmg, halg]

/-- The bucket pruning that `get` performs at `t1` is invisible to a
sliding-window `check` at any later `t2`: the check would have dropped those
buckets anyway, and it recomputes `count` and `resetTime` from the buckets. -/
theorem checkSliding_after_getPrune (cfg : RateLimitConfig) (store : Store) (key : String)
    (t1 t2 : ℚ) (entry : Entry) (b : List (ℚ × ℚ))
    (h12 : t1 ≤ t2)
    (hget : mapGet store key = some entry)
    (hb : entry.buckets = some b) :
    checkSlidingWindow cfg (mapSet store key (getSlidingPrune cfg entry b t1)) key t2 =
      checkSlidingWindow cfg store key t2 := by
  have hws : roundedTo cfg.precision t1 - cfg.window ≤ roundedTo cfg.precision t2 - cfg.window :=
    sub_le_sub_right (roundedTo_mono cfg.precision t1 t2 h12) _
  have hgetL : mapGet (mapSet store key (getSlidingPrune cfg entry b t1)) key =
      some (getSlidingPrune cfg entry b t1) := mapGet_mapSet_self _ _ _
  simp only [checkSlidingWindow, hgetL, hget, Option.getD_some, getSlidingPrune_buckets,
    getSlidingPrune_tokens, getSlidingPrune_lastRefill, hb,
    pruneBuckets_pruneBuckets b _ _ hws, mapSet_mapSet_self]

/-- Under the sliding-window algorithm, a `get` at `t1` does not change the
`current` reported by a later `get` at `t2 ≥ t1`. -/
theorem get_get_current_sliding (cfg : RateLimitConfig) (store : Store) (e i : String)
    (t1 t2 : ℚ) (halg : cfg.algorithm = "SLIDING_WINDOW") (h12 : t1 ≤ t2) :
    (get cfg (get cfg store e i t1).1 e i t2).2.current = (get cfg store e i t2).2.current := by
  have hT : ¬ cfg.algorithm = "TOKEN_BUCKET" := by
    rw [halg]; decide
  have hcur : ∀ en : Entry, (createRateLimitResult cfg en).current = en.count := by
    intro en
    simp [createRateLimitResult, hT, halg]
  have hws : roundedTo cfg.precision t1 - cfg.window ≤ roundedTo cfg.precision t2 - cfg.window :=
    sub_le_sub_right (roundedTo_mono cfg.precision t1 t2 h12) _
  rcases hmg : mapGet store (generateKey e i) with _ | entry
  · rw [show (get cfg store e i t1).1 = store from by simp [get, hmg]]
  · rcases hbk : entry.buckets with _ | b
    · rw [show (get cfg store e i t1).1 = store from by simp [get, hmg, halg, hbk]]
    · rw [show (get cfg store e i t1).1 =
          mapSet store (generateKey e i) (getSlidingPrune cfg entry b t1) from by
        simp [get, hmg, halg, hbk]]
      have hgetL : mapGet (mapSet store (generateKey e i) (getSlidingPrune cfg entry b t1))
          (generateKey e i) = some (getSlidingPrune cfg entry b t1) := mapGet_mapSet_self _ _ _
      have hL : (get cfg (mapSet store (generateKey e i) (getSlidingPrune cfg entry b t1))
          e i t2).2.current =
          some (bucketsTotal (pruneBuckets b (roundedTo cfg.precision t2 - cfg.window))) := by
        simp [get, hgetL, halg, getSlidingPrune_buckets, hcur, getSlidingPrune_count,
          pruneBuckets_pruneBuckets b _ _ hws]
      have hR : (get cfg store e i t2).2.current =
          some (bucketsTotal (pruneBuckets b (roundedTo cfg.precision t2 - cfg.window))) := by
        simp [get, hmg, halg, hbk, hcur, getSlidingPrune_count]
      rw [hL, hR]

/-- C7: for every recognized algorithm, `get` does not change the stored
admission count: a `check` immediately following a `get` (same or later time)
returns exactly what it would have returned without the intervening `get` —
store and result alike — and a `get` following a `get` reports the same
`current` as a single `get` would. -/
theorem get_is_read_only (cfg : RateLimitConfig) (store : Store) (e i : String)
    (t1 t2 : ℚ)
    (halg : cfg.algorithm = "FIXED_WINDOW" ∨ cfg.algorithm = "SLIDING_WINDOW" ∨
      cfg.algorithm = "TOKEN_BUCKET")
    (h12 : t1 ≤ t2) :
    check cfg (get cfg store e i t1).1 e i t2 = check cfg store e i t2
    ∧ (get cfg (get cfg store e i t1).1 e i t2).2.current =
        (get cfg store e i t2).2.current := by
  rcases halg with h | h | h
  · have hs := get_store_nonsliding cfg store e i t1 (by rw [h]; decide)
    rw [hs]
    exact ⟨rfl, rfl⟩
  · constructor
    · have hF : ("SLIDING_WINDOW" : String) ≠ "FIXED_WINDOW" := by decide
      have hd : ∀ s : Store, check cfg s e i t2 =
          checkSlidingWindow cfg s (generateKey e i) t2 := by
        intro s
        simp [check, h, hF]
      rw [hd, hd]
      rcases hmg : mapGet store (generateKey e i) with _ | entry
      · rw [show (get cfg store e i t1).1 = store from by simp [get, hmg]]
      · rcases hbk : entry.buckets with _ | b
        · rw [show (get cfg store e i t1).1 = store from by simp [get, hmg, h, hbk]]
        · rw [show (get cfg store e i t1).1 =
              mapSet store (generateKey e i) (getSlidingPrune cfg entry b t1) from by
            simp [get, hmg, h, hbk]]
          exact checkSliding_after_getPrune cfg store _ t1 t2 entry b h12 hmg hbk
    · exact get_get_current_sliding cfg store e i t1 t2 h h12
  · have hs := get_store_nonsliding cfg store e i t1 (by rw [h]; decide)
    rw [hs]
    exact ⟨rfl, rfl⟩

/-- Witness for C7: the sliding-window fixture checked after a `get` at an
earlier time (1050 then 1100). -/
theorem get_is_read_only_witness :
    (cfgSW.algorithm = "SLIDING_WINDOW" ∧ (1050 : ℚ) ≤ 1100)
    ∧ check cfgSW (get cfgSW storeSW "p" "q" 1050).1 "p" "q" 1100 =
        check cfgSW storeSW "p" "q" 1100
    ∧ (get cfgSW (get cfgSW storeSW "p" "q" 1050).1 "p" "q" 1100).2.current =
        (get cfgSW storeSW "p" "q" 1100).2.current := by
  refine ⟨⟨rfl, by norm_num⟩, ?_⟩
  exact get_is_read_only cfgSW storeSW "p" "q" 1050 1100 (Or.inr (Or.inl rfl)) (by norm_num)

/-- Writing through an address updates exactly that heap cell. -/
theorem mapGet_heapWrite_self (h : Heap) (a : ℕ) (ts v : ℚ) :
    mapGet (heapWrite h a ts v) a = (mapGet h a).map (fun bs => mapSet bs ts v) := by
  induction h with
  | nil => rfl
  | cons p ps ih =>
    simp only [heapWrite, List.map_cons] at ih ⊢
    by_cases hp : p.1 = a
    · simp [mapGet_cons, hp]
    · simp [mapGet_cons, hp, ih]

/-- C8 counterexample: `getEntry` returns a shallow copy sharing the buckets
`Map`.  Writing through the returned entry's buckets reference changes what
every subsequent internal read observes (here the summed count a
sliding-window reader would compute changes from 1 to 999), so the mutation
is visible in internal state, contrary to the claim. -/
theorem getEntry_shallow_copy_cex :
    getEntryR storeR "p" "q" = some entR
    ∧ entR.bucketsAddr = some 0
    ∧ observedBuckets storeR heapR "p" "q" = some [(0, 1)]
    ∧ observedBuckets storeR (heapWrite heapR 0 0 999) "p" "q" = some [(0, 999)]
    ∧ (observedBuckets storeR (heapWrite heapR 0 0 999) "p" "q").map bucketsTotal = some 999
    ∧ (observedBuckets storeR heapR "p" "q").map bucketsTotal = some 1
    ∧ observedBuckets storeR (heapWrite heapR 0 0 999) "p" "q" ≠
        observedBuckets storeR heapR "p" "q" := by
  have h3 : observedBuckets storeR heapR "p" "q" = some [(0, 1)] := by decide
  have h4 : observedBuckets storeR (heapWrite heapR 0 0 999) "p" "q" = some [(0, 999)] := by
    decide
  refine ⟨by decide, rfl, h3, h4, ?_, ?_, ?_⟩
  · rw [h4]
    norm_num [bucketsTotal]
  · rw [h3]
    norm_num [bucketsTotal]
  · rw [h3, h4]
    decide

/-- C8 amended: `getEntry` returns a shallow copy: the record it returns has
exactly the stored entry's field values — the scalar fields are copied by
value (the copy is a fresh record, so caller-side writes to those fields
cannot reach the store), but `buckets` is the same reference — and a write
through that shared reference is observed by all subsequent internal reads of
the entry's buckets map. -/
theorem getEntry_shallow_copy_spec (store : StoreR) (h : Heap) (e i : String)
    (en : EntryR) (a : ℕ) (bs : List (ℚ × ℚ)) (ts v : ℚ)
    (hget : mapGet store (generateKey e i) = some en)
    (haddr : en.bucketsAddr = some a)
    (hheap : mapGet h a = some bs) :
    getEntryR store e i = some en
    ∧ (getEntryR store e i).map (fun c => c.bucketsAddr) = some (some a)
    ∧ observedBuckets store h e i = some bs
    ∧ observedBuckets store (heapWrite h a ts v) e i = some (mapSet bs ts v) := by
  refine ⟨?_, ?_, ?_, ?_⟩
  · simp [getEntryR, hget]
  · simp [getEntryR, hget, haddr]
  · simp [observedBuckets, hget, haddr, hheap]
  · simp [observedBuckets, hget, haddr, mapGet_heapWrite_self, hheap]

/-- Witness for the amended C8 at the reference-model fixture. -/
theorem getEntry_shallow_copy_spec_witness :
    (mapGet storeR (generateKey "p" "q") = some entR
      ∧ entR.bucketsAddr = some 0
      ∧ mapGet heapR 0 = some [(0, 1)])
    ∧ getEntryR storeR "p" "q" = some entR
    ∧ (getEntryR storeR "p" "q").map (fun c => c.bucketsAddr) = some (some 0)
    ∧ observedBuckets storeR heapR "p" "q" = some [(0, 1)]
    ∧ observedBuckets storeR (heapWrite heapR 0 7 3) "p" "q" =
        some (mapSet [(0, 1)] 7 3) := by
  refine ⟨⟨by decide, rfl, by decide⟩, ?_⟩
  exact getEntry_shallow_copy_spec storeR heapR "p" "q" entR 0 [(0, 1)] 7 3
    (by decide) rfl (by decide)

end RateLimiter
